import Mathlib

/-!
Verification development for the 3d-digital-twin repository's resource
management core: the `ResourceManagerService` reference-counted registry
(src/frontend/src/services/statusUpdateService.ts, second module),
the `ProgressiveLoaderService` streaming scheduler
(src/frontend/src/services/progressiveLoader.ts), and the
`RenderOptimizerService` adaptive quality controller (src/unnamed/part_003).

The TypeScript services are shallowly embedded as pure Lean functions.
JavaScript `Map`/`Set` objects are modelled as insertion-ordered
association lists with the exact JS semantics (set on an existing key
updates in place, new keys append; `Set.add` appends if absent).
JS numbers used as counters, sizes and timestamps are modelled as `Nat`
(they are non-negative integers in every code path), except reference
counts which are modelled as `Int` so that the non-negativity claim is
meaningful.  Fractional quantities (FPS, pixel ratios, LOD reduction
ratios, distances) are modelled as `ℚ`; the source computes them in IEEE
doubles, and every constant involved (0.8, 1.1, 1.2, 2, 50, 100) is used
only in comparisons and simple products where the rational and float
computations agree on the branches taken for the inputs considered here.
-/

/-- Lookup in an insertion-ordered association list, JS `Map.get`. -/
def mapGet {κ α : Type} [DecidableEq κ] : List (κ × α) → κ → Option α
  | [], _ => none
  | (k, v) :: rest, key => if k = key then some v else mapGet rest key

/-- JS `Map.set`: update the existing entry in place, else append. -/
def mapSet {κ α : Type} [DecidableEq κ] : List (κ × α) → κ → α → List (κ × α)
  | [], key, val => [(key, val)]
  | (k, v) :: rest, key, val =>
    if k = key then (key, val) :: rest else (k, v) :: mapSet rest key val

/-- JS `Map.delete`: remove the entry with the given key. -/
def mapDelete {κ α : Type} [DecidableEq κ] : List (κ × α) → κ → List (κ × α)
  | [], _ => []
  | (k, v) :: rest, key =>
    if k = key then mapDelete rest key else (k, v) :: mapDelete rest key

/-- JS `Set.add`: append the element if it is not already present. -/
def setAdd (s : List String) (k : String) : List String :=
  if k ∈ s then s else s ++ [k]

/-- JS `Set.delete`: remove the element. -/
def setDelete (s : List String) (k : String) : List String :=
  s.filter (fun x => x ≠ k)

/-- Resource kinds, the `ResourceInfo['type']` union
`'geometry' | 'material' | 'texture' | 'mesh' | 'scene'`. -/
inductive RType where
  | geometry
  | material
  | texture
  | mesh
  | scene
deriving DecidableEq, Repr

/-- Underlying Three.js objects held by the registry's `resourceObjects`
map, modelled as a heap of addressed objects.  Geometries, materials and
textures carry a `disposed` flag recording whether their `dispose()`
method has been called; meshes point at the heap addresses of their
`geometry` and `material` objects (a THREE mesh's material may be a
single material or an array — both are a list of addresses here, empty
for a null material); scenes carry their traversal order list of mesh
children.  Parent/child scene-graph detachment (`parent.remove`) has no
registry-visible effect and is not modelled. -/
inductive HeapObj where
  | geometry (attrBytes : List Nat) (indexBytes : Option Nat) (disposed : Bool)
  | material (disposed : Bool)
  | texture (image : Option (Nat × Nat)) (disposed : Bool)
  | mesh (geo : Option Nat) (mats : List Nat)
  | scene (childMeshes : List Nat)
deriving DecidableEq, Repr

/-- Heap of Three.js objects, keyed by address. -/
abbrev Heap : Type := List (Nat × HeapObj)

/-- ResourceInfo record tracked per resource id (statusUpdateService.ts,
`interface ResourceInfo`).  `refCount` is `Int` so that the spec's
"never goes negative" property is a real statement. -/
structure ResourceInfo where
  id : String
  type : RType
  size : Nat
  createdAt : Nat
  lastUsed : Nat
  refCount : Int
deriving DecidableEq, Repr

/-- State of a `ResourceManagerService` instance: the `resources` and
`resourceObjects` maps, the `disposalQueue` set, plus the heap of
underlying objects the ids refer to.  The auto-cleanup timer fields are
not modelled (no claim concerns them). -/
structure Registry where
  resources : List (String × ResourceInfo)
  resourceObjects : List (String × Nat)
  disposalQueue : List String
  heap : Heap
deriving DecidableEq, Repr

/-- Registry with no tracked resources over a given heap of objects. -/
def initRegistry (h : Heap) : Registry :=
  { resources := [], resourceObjects := [], disposalQueue := [], heap := h }

/-- Embeds `estimateResourceSize`: geometry sums attribute and index
buffer byte lengths (when the object really is a geometry, the
`instanceof` guard), texture takes width*height*4 with 512 defaults for
falsy (zero) dimensions and requires a non-null `image`, material/mesh/
scene are the fixed heuristics 1024/512/256, anything else is 0. -/
def estimateResourceSize (h : Heap) (addr : Nat) (ty : RType) : Nat :=
  match ty with
  | .geometry =>
    match mapGet h addr with
    | some (.geometry attrBytes indexBytes _) => attrBytes.sum + indexBytes.getD 0
    | _ => 0
  | .texture =>
    match mapGet h addr with
    | some (.texture (some (w, ht)) _) =>
      (if w = 0 then 512 else w) * (if ht = 0 then 512 else ht) * 4
    | _ => 0
  | .material => 1024
  | .mesh => 512
  | .scene => 256

/-- Embeds `registerResource(resource, type, id?)`.  The generated id
(`generateResourceId` uses `Date.now`/`Math.random`) is supplied by the
environment as `genId`; `now` stands for `Date.now()`.  Note the source
performs no duplicate check: both maps are written with `Map.set`. -/
def registerResource (r : Registry) (addr : Nat) (ty : RType)
    (idOpt : Option String) (genId : String) (now : Nat) : Registry × String :=
  let resourceId := idOpt.getD genId
  let info : ResourceInfo :=
    { id := resourceId, type := ty, size := estimateResourceSize r.heap addr ty,
      createdAt := now, lastUsed := now, refCount := 1 }
  ({ r with resources := mapSet r.resources resourceId info,
            resourceObjects := mapSet r.resourceObjects resourceId addr },
   resourceId)

/-- Embeds `addReference(resourceId)`: if present, `refCount++` and
`lastUsed = Date.now()`; silently does nothing otherwise.  It does not
touch the disposal queue. -/
def addReference (r : Registry) (resourceId : String) (now : Nat) : Registry :=
  match mapGet r.resources resourceId with
  | none => r
  | some info =>
    let touched := { info with refCount := info.refCount + 1, lastUsed := now }
    { r with resources := mapSet r.resources resourceId touched }

/-- Embeds `removeReference(resourceId)`:
`refCount = Math.max(0, refCount - 1)`, and if the count is now 0 the id
is added to the disposal queue. -/
def removeReference (r : Registry) (resourceId : String) : Registry :=
  match mapGet r.resources resourceId with
  | none => r
  | some info =>
    let newCount := max 0 (info.refCount - 1)
    let lowered := { info with refCount := newCount }
    let r' := { r with resources := mapSet r.resources resourceId lowered }
    if newCount = 0 then
      { r' with disposalQueue := setAdd r'.disposalQueue resourceId }
    else r'

/-- Embeds `touchResource(resourceId)`: refresh `lastUsed` only. -/
def touchResource (r : Registry) (resourceId : String) (now : Nat) : Registry :=
  match mapGet r.resources resourceId with
  | none => r
  | some info =>
    let touched := { info with lastUsed := now }
    { r with resources := mapSet r.resources resourceId touched }

/-- Dispose of one heap object: set the `disposed` flag of a geometry,
material or texture (their `dispose()` method); meshes and scenes have
no `dispose()` of their own. -/
def objDispose : HeapObj → HeapObj
  | .geometry a i _ => .geometry a i true
  | .material _ => .material true
  | .texture img _ => .texture img true
  | o => o

/-- Call `dispose()` on the object at a heap address, if present. -/
def heapDisposeAt (h : Heap) (addr : Nat) : Heap :=
  match mapGet h addr with
  | none => h
  | some o => mapSet h addr (objDispose o)

/-- Embeds `disposeMesh(mesh)` acting on the heap: dispose the mesh's
own geometry and each of its materials.  The final `parent.remove(mesh)`
step only detaches the mesh from the scene graph and is registry-invisible. -/
def disposeMesh (h : Heap) (geo : Option Nat) (mats : List Nat) : Heap :=
  let h1 := match geo with
    | some g => heapDisposeAt h g
    | none => h
  mats.foldl heapDisposeAt h1

/-- Embeds `disposeScene(scene)` acting on the heap: the collected
traversal list is processed in reverse and each mesh child is passed to
`disposeMesh`; finally the scene's child list is cleared. -/
def disposeScene (h : Heap) (sceneAddr : Nat) (childMeshes : List Nat) : Heap :=
  let h1 := childMeshes.reverse.foldl
    (fun (hh : Heap) (caddr : Nat) =>
      match mapGet hh caddr with
      | some (HeapObj.mesh g m) => disposeMesh hh g m
      | _ => hh) h
  mapSet h1 sceneAddr (.scene [])

/-- Kind-specific teardown performed by `disposeResource`'s `switch`,
with each case guarded by the corresponding `instanceof` check. -/
def disposeSwitch (h : Heap) (ty : RType) (addr : Nat) : Heap :=
  match ty, mapGet h addr with
  | .geometry, some (.geometry a i _) => mapSet h addr (.geometry a i true)
  | .material, some (.material _) => mapSet h addr (.material true)
  | .texture, some (.texture img _) => mapSet h addr (.texture img true)
  | .mesh, some (.mesh geo mats) => disposeMesh h geo mats
  | .scene, some (.scene children) => disposeScene h addr children
  | _, _ => h

/-- Embeds `disposeResource(resourceId, force = false)`.  Returns false
without effect when the id is unknown to either map, or when `!force`
and `refCount > 0`; otherwise runs the kind-specific teardown and
removes the id from `resources`, `resourceObjects` and the disposal
queue.  The `try/catch` is not modelled: no teardown step in the model
throws (THREE `dispose()` calls do not throw on these object kinds). -/
def disposeResource (r : Registry) (resourceId : String) (force : Bool) :
    Registry × Bool :=
  match mapGet r.resources resourceId, mapGet r.resourceObjects resourceId with
  | some info, some addr =>
    if !force && info.refCount > 0 then (r, false)
    else
      ({ r with heap := disposeSwitch r.heap info.type addr,
                resources := mapDelete r.resources resourceId,
                resourceObjects := mapDelete r.resourceObjects resourceId,
                disposalQueue := setDelete r.disposalQueue resourceId },
       true)
  | _, _ => (r, false)

/-- Helper for `processDisposalQueue`: fold `disposeResource(id)` over
the snapshot of queued ids, counting successful disposals.  The JS
`for...of` over the live `Set` visits exactly the ids present when the
loop starts, since `disposeResource` only ever deletes the id currently
being visited and never adds. -/
def processQueueAux : List String → Registry → Nat → Registry × Nat
  | [], r, n => (r, n)
  | resourceId :: rest, r, n =>
    let step := disposeResource r resourceId false
    processQueueAux rest step.1 (if step.2 then n + 1 else n)

/-- Embeds `processDisposalQueue()`. -/
def processDisposalQueue (r : Registry) : Registry × Nat :=
  processQueueAux r.disposalQueue r 0

/-- Registry statistics, embedding `getResourceStats()` (the per-type
record is embedded as `statsCountOfType` below). -/
structure ResourceStats where
  totalResources : Nat
  totalSize : Nat
  queuedForDisposal : Nat
deriving DecidableEq, Repr

/-- Embeds the scalar fields of `getResourceStats()`. -/
def getResourceStats (r : Registry) : ResourceStats :=
  { totalResources := r.resources.length,
    totalSize := (r.resources.map (fun e => e.2.size)).sum,
    queuedForDisposal := r.disposalQueue.length }

/-- Per-type count from `getResourceStats().byType`. -/
def statsCountOfType (r : Registry) (ty : RType) : Nat :=
  (r.resources.filter (fun e => e.2.type = ty)).length

/-- One registry call in a client-visible trace. -/
inductive RegOp where
  | register (addr : Nat) (ty : RType) (idOpt : Option String) (genId : String) (now : Nat)
  | addRef (resourceId : String) (now : Nat)
  | removeRef (resourceId : String)
  | touch (resourceId : String) (now : Nat)
  | dispose (resourceId : String) (force : Bool)
  | processQueue
deriving DecidableEq, Repr

/-- Apply one registry call. -/
def applyOp (r : Registry) : RegOp → Registry
  | .register addr ty idOpt genId now => (registerResource r addr ty idOpt genId now).1
  | .addRef resourceId now => addReference r resourceId now
  | .removeRef resourceId => removeReference r resourceId
  | .touch resourceId now => touchResource r resourceId now
  | .dispose resourceId force => (disposeResource r resourceId force).1
  | .processQueue => (processDisposalQueue r).1

/-- Run a trace of registry calls. -/
def runOps (r : Registry) (ops : List RegOp) : Registry :=
  ops.foldl applyOp r

/-- Substring test helper: does the first character list start with the
second? -/
def listStartsWith : List Char → List Char → Bool
  | _, [] => true
  | [], _ :: _ => false
  | a :: as, b :: bs => a == b && listStartsWith as bs

/-- Does the first character list contain the second as a contiguous
run?  Models JS `String.prototype.includes`. -/
def listContainsSeq : List Char → List Char → Bool
  | [], pat => pat.isEmpty
  | a :: rest, pat => listStartsWith (a :: rest) pat || listContainsSeq rest pat

/-- JS `haystack.includes(needle)` on strings. -/
def strIncludes (s pat : String) : Bool :=
  listContainsSeq s.data pat.data

/-- JS `name.toLowerCase()` for the ASCII names used in mesh
classification. -/
def strToLower (s : String) : String :=
  String.mk (s.data.map Char.toLower)

/-- Numeric values of the `LoadingPriority` enum
(progressiveLoader.ts): CRITICAL = 0, HIGH = 1, MEDIUM = 2, LOW = 3. -/
def CRITICAL : Nat := 0

/-- LoadingPriority.HIGH. -/
def HIGH : Nat := 1

/-- LoadingPriority.MEDIUM. -/
def MEDIUM : Nat := 2

/-- LoadingPriority.LOW. -/
def LOW : Nat := 3

/-- A mesh as seen by the progressive loader: its name, the counts of
its geometry's index / position attribute (for `getTriangleCount`), the
byte lengths of its attribute arrays and optional index array (for
`estimateMeshSize`), and its `visible` flag. -/
structure LMesh where
  name : String
  indexCount : Option Nat
  positionCount : Option Nat
  attrBytes : List Nat
  indexBytes : Option Nat
  visible : Bool
deriving DecidableEq, Repr

/-- Embeds `getTriangleCount(mesh)` scaled by 3: the source returns
`index.count / 3` (or `position.count / 3`, or 0) as a JS double and
only compares it with the integer thresholds 10000 and 1000, so the
numerator is kept and thresholds are scaled to 30000/3000 in
`determineMeshPriority` (exact: `c/3 > 10000` iff `c > 30000` for the
integer counts involved, and IEEE division cannot move `c/3` across an
integer at these magnitudes). -/
def getTriangleCountNum (m : LMesh) : Nat :=
  match m.indexCount with
  | some c => c
  | none => m.positionCount.getD 0

/-- Embeds `determineMeshPriority(mesh)`: name heuristics first
(structure/foundation/core then panel/facade/wall then
detail/trim/fixture on the lowercased name), then the triangle count
fallback. -/
def determineMeshPriority (m : LMesh) : Nat :=
  let nm := strToLower m.name
  if strIncludes nm "structure" || strIncludes nm "foundation" || strIncludes nm "core" then
    CRITICAL
  else if strIncludes nm "panel" || strIncludes nm "facade" || strIncludes nm "wall" then
    HIGH
  else if strIncludes nm "detail" || strIncludes nm "trim" || strIncludes nm "fixture" then
    MEDIUM
  else
    let c := getTriangleCountNum m
    if c > 30000 then HIGH
    else if c > 3000 then MEDIUM
    else LOW

/-- Embeds `estimateMeshSize(mesh)`: geometry attribute byte lengths
plus index byte length plus the 1024-byte material estimate. -/
def estimateMeshSize (m : LMesh) : Nat :=
  m.attrBytes.sum + m.indexBytes.getD 0 + 1024

/-- A loading chunk (progressiveLoader.ts `interface LoadingChunk`).
The id stamp produced from `Date.now()`/`Math.random()` is environment
noise; the model derives the id from the priority alone, which no claim
depends on. -/
structure Chunk where
  id : String
  priority : Nat
  meshes : List LMesh
  estimatedSize : Nat
  loaded : Bool
deriving DecidableEq, Repr

/-- Embeds `createChunk(meshes, priority, size)`. -/
def createChunk (meshes : List LMesh) (priority : Nat) (size : Nat) : Chunk :=
  { id := "chunk_" ++ toString priority, priority := priority,
    meshes := meshes, estimatedSize := size, loaded := false }

/-- The accumulator loop of `createChunksFromMeshes`: `currentChunk` /
`currentSize` walk the mesh list, a chunk closes when adding the next
mesh would exceed the size limit and the current chunk is non-empty. -/
def chunkAccum (limit : Nat) (priority : Nat) :
    List LMesh → List LMesh → Nat → List Chunk
  | [], cur, curSize =>
    if cur.length > 0 then [createChunk cur priority curSize] else []
  | m :: rest, cur, curSize =>
    let meshSize := estimateMeshSize m
    if curSize + meshSize > limit && cur.length > 0 then
      createChunk cur priority curSize :: chunkAccum limit priority rest [m] meshSize
    else
      chunkAccum limit priority rest (cur ++ [m]) (curSize + meshSize)

/-- Embeds `createChunksFromMeshes(meshes, priority)` with the
configured `chunkSizeLimit`. -/
def createChunksFromMeshes (limit : Nat) (meshes : List LMesh) (priority : Nat) :
    List Chunk :=
  chunkAccum limit priority meshes [] 0

/-- Embeds `groupMeshesByPriority`: the group for one priority level,
in scene traversal order. -/
def groupMeshesByPriority (meshes : List LMesh) (priority : Nat) : List LMesh :=
  meshes.filter (fun m => determineMeshPriority m = priority)

/-- Embeds `analyzeAndChunkModel(scene)` given the scene's meshes in
traversal order: `Object.entries` over the numeric-keyed priority-group
record iterates the keys "0","1","2","3" in ascending order. -/
def analyzeAndChunkModel (limit : Nat) (meshes : List LMesh) : List Chunk :=
  ([CRITICAL, HIGH, MEDIUM, LOW].map
    (fun p => createChunksFromMeshes limit (groupMeshesByPriority meshes p) p)).foldr
    (fun a b => a ++ b) []

/-- Stable insertion into a priority-sorted chunk list: the new chunk
goes after every chunk of priority ≤ its own. -/
def insertChunk (c : Chunk) : List Chunk → List Chunk
  | [] => [c]
  | d :: ds => if d.priority ≤ c.priority then d :: insertChunk c ds else c :: d :: ds

/-- Embeds `chunks.sort((a, b) => a.priority - b.priority)` — a stable
sort by ascending priority (JS `Array.prototype.sort` is stable). -/
def sortChunksByPriority (l : List Chunk) : List Chunk :=
  l.foldl (fun acc c => insertChunk c acc) []

/-- The chunk pipeline of `loadModelProgressively`: analyze and chunk
the scene's meshes, then sort by priority; the result is assigned to
`loadingQueue`. -/
def loadModelChunks (limit : Nat) (meshes : List LMesh) : List Chunk :=
  sortChunksByPriority (analyzeAndChunkModel limit meshes)

/-- Scheduler state of `ProgressiveLoaderService`: the queue of not yet
started chunks, the set of active chunk ids, and the map of completed
chunks.  `started` is an observation history: the chunks whose
`loadChunk` call has begun, in call order. -/
structure LoaderState where
  loadingQueue : List Chunk
  activeLoads : List String
  loadedChunks : List (String × Chunk)
  started : List Chunk
deriving DecidableEq, Repr

/-- Small-step semantics of the `processLoadingQueue` /`loadChunk`
event loop.  A `start` step is one iteration of the inner while loop:
guarded by `activeLoads.size < maxConcurrentChunks`, it shifts the
queue head and runs the synchronous prefix of `loadChunk`, whose first
statement adds the chunk id to `activeLoads`.  A `finish` step is the
asynchronous completion of a `loadChunk` call: the chunk is recorded as
loaded and the `finally` block removes its id from `activeLoads`.
Completions may occur in any order relative to starts, which models the
arbitrary interleaving of the staggered delays. -/
inductive LoadStep (maxConcurrentChunks : Nat) : LoaderState → LoaderState → Prop
  | start (s : LoaderState) (c : Chunk) (rest : List Chunk) :
      s.activeLoads.length < maxConcurrentChunks →
      s.loadingQueue = c :: rest →
      LoadStep maxConcurrentChunks s
        { loadingQueue := rest,
          activeLoads := setAdd s.activeLoads c.id,
          loadedChunks := s.loadedChunks,
          started := s.started ++ [c] }
  | finish (s : LoaderState) (c : Chunk) :
      c.id ∈ s.activeLoads →
      LoadStep maxConcurrentChunks s
        { loadingQueue := s.loadingQueue,
          activeLoads := setDelete s.activeLoads c.id,
          loadedChunks := mapSet s.loadedChunks c.id { c with loaded := true },
          started := s.started }

/-- Reflexive-transitive closure of `LoadStep`: the states visited
during one execution of the loading loop. -/
inductive LoadReaches (maxConcurrentChunks : Nat) : LoaderState → LoaderState → Prop
  | refl (s : LoaderState) : LoadReaches maxConcurrentChunks s s
  | tail {s t u : LoaderState} :
      LoadReaches maxConcurrentChunks s t →
      LoadStep maxConcurrentChunks t u →
      LoadReaches maxConcurrentChunks s u

/-- Initial scheduler state for a freshly assigned loading queue. -/
def initLoaderState (queue : List Chunk) : LoaderState :=
  { loadingQueue := queue, activeLoads := [], loadedChunks := [], started := [] }

/-- Loader configuration (progressiveLoader.ts
`ProgressiveLoadingOptions`). -/
structure ProgressiveLoadingOptions where
  maxConcurrentChunks : Nat
  chunkSizeLimit : Nat
  priorityDelayMs : Nat
  enablePreloading : Bool
  distanceBasedLoading : Bool
deriving DecidableEq, Repr

/-- The visibility decision of `updateDistanceBasedLoading` for one
mesh of a completed chunk, given the chunk priority and the camera
distance `cameraPosition.distanceTo(mesh.position)`:
hide when `priority >= MEDIUM && distance > 100`, else hide when
`priority >= LOW && distance > 50`, else show. -/
def distanceVisibility (priority : Nat) (distance : ℚ) : Bool :=
  if priority ≥ MEDIUM && distance > 100 then false
  else if priority ≥ LOW && distance > 50 then false
  else true

/-- A camera position; only the distances it induces matter here. -/
structure Vec3 where
  x : ℚ
  y : ℚ
  z : ℚ
deriving DecidableEq, Repr

/-- Embeds `updateDistanceBasedLoading()`: early-out when the option is
off or camera/scene are unset; otherwise every mesh of every completed
chunk gets its `visible` flag overwritten with the distance decision.
The real-valued Euclidean `distanceTo` is supplied as the oracle `dist`
mapping the camera position and a mesh to their distance. -/
def updateDistanceBasedLoading (opts : ProgressiveLoadingOptions)
    (camera : Option Vec3) (scene : Option Unit) (dist : Vec3 → LMesh → ℚ)
    (loadedChunks : List (String × Chunk)) : List (String × Chunk) :=
  match camera, scene with
  | some cam, some _ =>
    if opts.distanceBasedLoading then
      loadedChunks.map (fun kc =>
        (kc.1, { kc.2 with meshes := kc.2.meshes.map (fun m =>
          { m with visible := distanceVisibility kc.2.priority (dist cam m) }) }))
    else loadedChunks
  | _, _ => loadedChunks

/-- Optimization settings (part_003 `OptimizationSettings`). -/
structure OptimizationSettings where
  enableLOD : Bool
  enableFrustumCulling : Bool
  enableOcclusionCulling : Bool
  maxDrawCalls : Nat
  targetFPS : ℚ
  adaptiveQuality : Bool
deriving DecidableEq, Repr

/-- Rendering-relevant slice of a `PerformanceMetrics` sample: the code
under verification reads only `metrics.renderingStats.fps`. -/
structure PerformanceSample where
  fps : ℚ
deriving DecidableEq, Repr

/-- Renderer state mutated by the quality axis: the pixel ratio and the
shadow map toggle.  The renderer is present whenever these routines are
reached (`initialize` sets it and each routine early-outs on null, a
path on which nothing happens). -/
structure RendererState where
  pixelRatio : ℚ
  shadowMapEnabled : Bool
deriving DecidableEq, Repr

/-- Embeds `reduceQuality()`: if the current pixel ratio is above 1 it
becomes `Math.max(1, ratio * 0.8)`, otherwise it is left alone; shadows
are switched off if they were on. -/
def reduceQuality (r : RendererState) : RendererState :=
  let r1 :=
    if r.pixelRatio > 1 then
      { r with pixelRatio := max 1 (r.pixelRatio * (4 / 5)) }
    else r
  if r1.shadowMapEnabled then { r1 with shadowMapEnabled := false } else r1

/-- Embeds `increaseQuality()`: with `maxPixelRatio =
Math.min(window.devicePixelRatio, 2)`, if the current ratio is below the
cap it becomes `Math.min(maxPixelRatio, ratio * 1.1)`, otherwise it is
left alone; shadows are switched on if they were off. -/
def increaseQuality (devicePixelRatio : ℚ) (r : RendererState) : RendererState :=
  let maxPixelRatio := min devicePixelRatio 2
  let r1 :=
    if r.pixelRatio < maxPixelRatio then
      { r with pixelRatio := min maxPixelRatio (r.pixelRatio * (11 / 10)) }
    else r
  if !r1.shadowMapEnabled then { r1 with shadowMapEnabled := true } else r1

/-- Embeds `adaptiveOptimization()`: no-op when adaptive quality is off
or the metrics source has no sample yet; otherwise reduce quality when
`fps < targetFPS * 0.8`, increase it when `fps > targetFPS * 1.2`, and
do nothing in between. -/
def adaptiveOptimization (settings : OptimizationSettings)
    (devicePixelRatio : ℚ) (metrics : Option PerformanceSample)
    (r : RendererState) : RendererState :=
  if !settings.adaptiveQuality then r
  else
    match metrics with
    | none => r
    | some m =>
      if m.fps < settings.targetFPS * (4 / 5) then reduceQuality r
      else if m.fps > settings.targetFPS * (6 / 5) then increaseQuality devicePixelRatio r
      else r

/-- Materials as seen by the render optimizer's LOD construction. -/
inductive OptMaterial where
  | standard (color : Nat) (transparent : Bool) (opacity : ℚ)
  | basic (color : Nat) (transparent : Bool) (opacity : ℚ)
  | other
deriving DecidableEq, Repr

/-- Geometry as seen by the LOD construction: the position attribute
(present or not) and the index array values. -/
structure OptGeometry where
  hasPositions : Bool
  indexVals : Option (List Nat)
deriving DecidableEq, Repr

/-- A mesh as seen by the render optimizer. -/
structure OptMesh where
  geometry : OptGeometry
  materials : List OptMaterial
  userDataIsLOD : Bool
deriving DecidableEq, Repr

/-- LOD configuration (part_003 `LODConfig`). -/
structure LODConfig where
  distances : List ℚ
  geometryReductions : List ℚ
  materialSimplifications : List Bool
deriving DecidableEq, Repr

/-- The `defaultLODConfig` of the source. -/
def defaultLODConfig : LODConfig :=
  { distances := [0, 20, 50, 100],
    geometryReductions := [0, 1 / 2, 3 / 4, 9 / 10],
    materialSimplifications := [false, false, true, true] }

/-- Embeds `simplifyGeometry(geometry, reduction)`: stride-based index
decimation.  `targetCount = Math.floor(count * (1 - reduction))`,
`step = Math.max(1, Math.floor(count / targetCount))`, and every
`step`-th index is kept.  When `targetCount` is 0 the JS division gives
Infinity and only index 0 survives, modelled by `step = count`. -/
def simplifyGeometry (g : OptGeometry) (reduction : ℚ) : OptGeometry :=
  match g.hasPositions, g.indexVals with
  | true, some idxs =>
    let count := idxs.length
    let targetCount := ((count : ℚ) * (1 - reduction)).floor.toNat
    let step := if targetCount = 0 then count else max 1 (count / targetCount)
    let kept := ((List.range count).filter (fun i => i % step = 0)).map
      (fun i => idxs.getD i 0)
    { g with indexVals := some kept }
  | _, _ => g

/-- Embeds `simplifyMaterial(material)`: an array collapses to its
first element; a `MeshStandardMaterial` becomes a flat-color
`MeshBasicMaterial`; anything else is returned as is. -/
def simplifyMaterial (mats : List OptMaterial) : OptMaterial :=
  match mats.headD .other with
  | .standard c t o => .basic c t o
  | m => m

/-- Embeds `createSimplifiedMesh(originalMesh, geometryReduction,
simplifyMaterial)`.  The `try/catch` returning null is not modelled:
no step of the model throws. -/
def createSimplifiedMesh (m : OptMesh) (geometryReduction : ℚ)
    (simplify : Bool) : OptMesh :=
  let geometry :=
    if geometryReduction > 0 then simplifyGeometry m.geometry geometryReduction
    else m.geometry
  let materials := if simplify then [simplifyMaterial m.materials] else m.materials
  { geometry := geometry, materials := materials, userDataIsLOD := true }

/-- A THREE.LOD object: its levels, each a mesh with its switch-in
distance. -/
structure LODLevels where
  levels : List (OptMesh × ℚ)
deriving DecidableEq, Repr

/-- State owned by `RenderOptimizerService` that the LOD routines
mutate: the `lodObjects` map from original mesh to its LOD object. -/
structure OptimizerState where
  lodObjects : List (OptMesh × LODLevels)
deriving DecidableEq, Repr

/-- Embeds `createLODForMesh(mesh, config)`.  The Resource Registry is
threaded through so that any registration the routine performed would be
visible; the source performs none (part_003 never references the
registry service).  The original mesh is level 0 and each further
config entry contributes one simplified variant. -/
def createLODForMesh (cfg : LODConfig) (m : OptMesh) (st : OptimizerState)
    (reg : Registry) : LODLevels × OptimizerState × Registry :=
  let variants := ((List.range cfg.distances.length).drop 1).map (fun i =>
    (createSimplifiedMesh m (cfg.geometryReductions.getD i 0)
      (cfg.materialSimplifications.getD i false),
     cfg.distances.getD i 0))
  let lod : LODLevels := { levels := (m, cfg.distances.getD 0 0) :: variants }
  (lod, { st with lodObjects := mapSet st.lodObjects m lod }, reg)

/-- Embeds `performFrustumCulling()` on the scene's meshes: each mesh's
`visible` flag is overwritten with the result of the frustum
intersection test, supplied as the oracle `test`. -/
def performFrustumCulling (test : LMesh → Bool) (meshes : List LMesh) : List LMesh :=
  meshes.map (fun m => { m with visible := test m })

/-- Embeds `RenderOptimizerService.reset()`: clear `lodObjects`, reset
the pixel ratio to `Math.min(window.devicePixelRatio, 2)`, re-enable
shadows, and set every scene object visible. -/
def optimizerReset (devicePixelRatio : ℚ) (st : OptimizerState)
    (_r : RendererState) (sceneMeshes : List LMesh) :
    OptimizerState × RendererState × List LMesh :=
  ({ st with lodObjects := [] },
   { pixelRatio := min devicePixelRatio 2, shadowMapEnabled := true },
   sceneMeshes.map (fun m => { m with visible := true }))

/-- Embeds `RenderOptimizerService.dispose()`: `reset()` then null out
the renderer/scene/camera references.  The Resource Registry is
threaded through to make its (absent) involvement observable: the
source's dispose performs no registry call. -/
def optimizerDispose (devicePixelRatio : ℚ) (st : OptimizerState)
    (r : RendererState) (sceneMeshes : List LMesh) (reg : Registry) :
    (OptimizerState × RendererState × List LMesh) × Registry :=
  (optimizerReset devicePixelRatio st r sceneMeshes, reg)

theorem mapGet_mapSet_self {κ α : Type} [DecidableEq κ] (m : List (κ × α)) (k : κ) (v : α) :
    mapGet (mapSet m k v) k = some v := by
  induction m with
  | nil => simp [mapGet, mapSet]
  | cons hd tl ih =>
    obtain ⟨a, b⟩ := hd
    by_cases h : a = k
    · simp [mapSet, mapGet, h]
    · simp [mapSet, mapGet, h, ih]

theorem mapGet_mapSet_ne {κ α : Type} [DecidableEq κ] (m : List (κ × α)) (k x : κ) (v : α)
    (h : x ≠ k) : mapGet (mapSet m k v) x = mapGet m x := by
  induction m with
  | nil => simp [mapGet, mapSet, Ne.symm h]
  | cons hd tl ih =>
    obtain ⟨a, b⟩ := hd
    simp only [mapSet]
    by_cases ha : a = k
    · subst ha
      simp [mapGet, Ne.symm h]
    · simp [mapGet, ha, ih]

theorem mapGet_mapSet_cases {κ α : Type} [DecidableEq κ] (m : List (κ × α)) (k x : κ)
    (v w : α) (h : mapGet (mapSet m k v) x = some w) :
    (x = k ∧ w = v) ∨ mapGet m x = some w := by
  by_cases hx : x = k
  · subst hx
    rw [mapGet_mapSet_self] at h
    exact Or.inl ⟨rfl, (Option.some.inj h).symm⟩
  · rw [mapGet_mapSet_ne m k x v hx] at h
    exact Or.inr h

theorem isSome_mapSet {κ α : Type} [DecidableEq κ] (m : List (κ × α)) (k x : κ) (v : α) :
    (mapGet (mapSet m k v) x).isSome = true ↔ (x = k ∨ (mapGet m x).isSome = true) := by
  by_cases hx : x = k
  · subst hx; simp [mapGet_mapSet_self]
  · simp [mapGet_mapSet_ne m k x v hx, hx]

theorem mapGet_mapDelete_self {κ α : Type} [DecidableEq κ] (m : List (κ × α)) (k : κ) :
    mapGet (mapDelete m k) k = none := by
  induction m with
  | nil => simp [mapGet, mapDelete]
  | cons hd tl ih =>
    obtain ⟨a, b⟩ := hd
    by_cases h : a = k <;> simp [mapDelete, mapGet, h, ih]

theorem mapGet_mapDelete_ne {κ α : Type} [DecidableEq κ] (m : List (κ × α)) (k x : κ)
    (h : x ≠ k) : mapGet (mapDelete m k) x = mapGet m x := by
  induction m with
  | nil => simp [mapDelete]
  | cons hd tl ih =>
    obtain ⟨a, b⟩ := hd
    simp only [mapDelete]
    by_cases ha : a = k
    · subst ha
      simp [mapGet, Ne.symm h, ih]
    · simp [mapGet, ha, ih]

theorem mapDelete_of_not_mem {κ α : Type} [DecidableEq κ] (m : List (κ × α)) (k : κ)
    (h : k ∉ m.map Prod.fst) : mapDelete m k = m := by
  induction m with
  | nil => rfl
  | cons hd tl ih =>
    obtain ⟨a, b⟩ := hd
    simp only [List.map_cons, List.mem_cons] at h
    push_neg at h
    simp [mapDelete, Ne.symm h.1, ih h.2]

theorem mapDelete_length {κ α : Type} [DecidableEq κ] (m : List (κ × α)) (k : κ)
    (hnd : (m.map Prod.fst).Nodup) (hmem : (mapGet m k).isSome = true) :
    (mapDelete m k).length + 1 = m.length := by
  induction m with
  | nil => simp [mapGet] at hmem
  | cons hd tl ih =>
    obtain ⟨a, b⟩ := hd
    simp only [List.map_cons, List.nodup_cons] at hnd
    by_cases h : a = k
    · subst h
      have hde : mapDelete ((a, b) :: tl) a = mapDelete tl a := by simp [mapDelete]
      rw [hde, mapDelete_of_not_mem tl a hnd.1]
      simp
    · have hmem' : (mapGet tl k).isSome = true := by simpa [mapGet, h] using hmem
      have := ih hnd.2 hmem'
      simp only [mapDelete, if_neg h, List.length_cons]
      omega

theorem mem_setAdd (s : List String) (k x : String) :
    x ∈ setAdd s k ↔ (x ∈ s ∨ x = k) := by
  unfold setAdd
  by_cases h : k ∈ s
  · simp only [if_pos h]
    constructor
    · exact Or.inl
    · rintro (hx | rfl)
      · exact hx
      · exact h
  · simp [if_neg h, List.mem_append]

theorem mem_setDelete (s : List String) (k x : String) :
    x ∈ setDelete s k ↔ (x ∈ s ∧ x ≠ k) := by
  simp [setDelete, List.mem_filter]

theorem setAdd_length_le (s : List String) (k : String) :
    (setAdd s k).length ≤ s.length + 1 := by
  by_cases h : k ∈ s <;> simp [setAdd, h]

theorem setDelete_length_le (s : List String) (k : String) :
    (setDelete s k).length ≤ s.length :=
  List.length_filter_le _ s

theorem isSome_mapSet_of {κ α : Type} [DecidableEq κ] (m : List (κ × α)) (k x : κ) (v : α)
    (h : (mapGet m x).isSome = true) : (mapGet (mapSet m k v) x).isSome = true :=
  (isSome_mapSet m k x v).mpr (Or.inr h)

theorem isSome_mapSet_existing {κ α : Type} [DecidableEq κ] (m : List (κ × α)) (k x : κ)
    (v : α) (hk : (mapGet m k).isSome = true) :
    (mapGet (mapSet m k v) x).isSome = (mapGet m x).isSome := by
  by_cases hx : x = k
  · subst hx; simp [mapGet_mapSet_self, hk]
  · rw [mapGet_mapSet_ne _ _ _ _ hx]

theorem mapGet_mapDelete_cases {κ α : Type} [DecidableEq κ] (m : List (κ × α)) (k x : κ)
    (w : α) (h : mapGet (mapDelete m k) x = some w) : mapGet m x = some w := by
  by_cases hx : x = k
  · subst hx; rw [mapGet_mapDelete_self] at h; cases h
  · rwa [mapGet_mapDelete_ne _ _ _ hx] at h

/-- Invariant of every reachable registry state: queued ids are still
registered, reference counts are non-negative, the `resources` and
`resourceObjects` maps track the same key set, and every registered id
whose count is 0 is in the disposal queue. -/
def RInv (r : Registry) : Prop :=
  (∀ id ∈ r.disposalQueue, (mapGet r.resources id).isSome = true) ∧
  (∀ id info, mapGet r.resources id = some info → 0 ≤ info.refCount) ∧
  (∀ id, (mapGet r.resources id).isSome = (mapGet r.resourceObjects id).isSome) ∧
  (∀ id info, mapGet r.resources id = some info → info.refCount = 0 →
    id ∈ r.disposalQueue)

theorem RInv_initRegistry (h : Heap) : RInv (initRegistry h) := by
  refine ⟨?_, ?_, ?_, ?_⟩ <;> simp [initRegistry, mapGet]

theorem RInv_registerResource (r : Registry) (addr : Nat) (ty : RType)
    (idOpt : Option String) (genId : String) (now : Nat) (h : RInv r) :
    RInv (registerResource r addr ty idOpt genId now).1 := by
  obtain ⟨h1, h2, h3, h4⟩ := h
  refine ⟨?_, ?_, ?_, ?_⟩
  · intro id hq
    exact isSome_mapSet_of _ _ _ _ (h1 id hq)
  · intro id info hget
    rcases mapGet_mapSet_cases _ _ _ _ _ hget with ⟨_, rfl⟩ | hold
    · norm_num
    · exact h2 id info hold
  · intro id
    show (mapGet (mapSet r.resources _ _) id).isSome =
      (mapGet (mapSet r.resourceObjects _ _) id).isSome
    by_cases hx : id = idOpt.getD genId
    · subst hx; simp [mapGet_mapSet_self]
    · rw [mapGet_mapSet_ne _ _ _ _ hx, mapGet_mapSet_ne _ _ _ _ hx]
      exact h3 id
  · intro id info hget hz
    rcases mapGet_mapSet_cases _ _ _ _ _ hget with ⟨_, rfl⟩ | hold
    · simp at hz
    · exact h4 id info hold hz

theorem RInv_addReference (r : Registry) (resourceId : String) (now : Nat) (h : RInv r) :
    RInv (addReference r resourceId now) := by
  obtain ⟨h1, h2, h3, h4⟩ := h
  cases hg : mapGet r.resources resourceId with
  | none => simpa [addReference, hg] using ⟨h1, h2, h3, h4⟩
  | some info =>
    simp only [addReference, hg]
    refine ⟨?_, ?_, ?_, ?_⟩
    · intro id hq
      exact isSome_mapSet_of _ _ _ _ (h1 id hq)
    · intro id info' hget
      rcases mapGet_mapSet_cases _ _ _ _ _ hget with ⟨_, rfl⟩ | hold
      · have := h2 resourceId info hg
        simp only
        omega
      · exact h2 id info' hold
    · intro id
      rw [isSome_mapSet_existing _ _ _ _ (by simp [hg])]
      exact h3 id
    · intro id info' hget hz
      rcases mapGet_mapSet_cases _ _ _ _ _ hget with ⟨_, rfl⟩ | hold
      · have := h2 resourceId info hg
        simp only at hz
        omega
      · exact h4 id info' hold hz

theorem RInv_removeReference (r : Registry) (resourceId : String) (h : RInv r) :
    RInv (removeReference r resourceId) := by
  obtain ⟨h1, h2, h3, h4⟩ := h
  cases hg : mapGet r.resources resourceId with
  | none => simpa [removeReference, hg] using ⟨h1, h2, h3, h4⟩
  | some info =>
    simp only [removeReference, hg]
    have hq' : ∀ id ∈ r.disposalQueue,
        (mapGet (mapSet r.resources resourceId
          { info with refCount := max 0 (info.refCount - 1) }) id).isSome = true :=
      fun id hq => isSome_mapSet_of _ _ _ _ (h1 id hq)
    have hn' : ∀ id info', (mapGet (mapSet r.resources resourceId
        { info with refCount := max 0 (info.refCount - 1) }) id) = some info' →
        0 ≤ info'.refCount := by
      intro id info' hget
      rcases mapGet_mapSet_cases _ _ _ _ _ hget with ⟨_, rfl⟩ | hold
      · simp only
        omega
      · exact h2 id info' hold
    have hk' : ∀ id, (mapGet (mapSet r.resources resourceId
        ({ info with refCount := max 0 (info.refCount - 1) })) id).isSome =
        (mapGet r.resourceObjects id).isSome := by
      intro id
      rw [isSome_mapSet_existing _ _ _ _ (by simp [hg])]
      exact h3 id
    split
    · rename_i hz
      refine ⟨?_, hn', hk', ?_⟩
      · intro id hq
        rcases (mem_setAdd _ _ _).mp hq with hq | rfl
        · exact hq' id hq
        · rw [mapGet_mapSet_self]
          rfl
      · intro id info' hget hz'
        rcases mapGet_mapSet_cases _ _ _ _ _ hget with ⟨rfl, rfl⟩ | hold
        · exact (mem_setAdd _ _ _).mpr (Or.inr rfl)
        · exact (mem_setAdd _ _ _).mpr (Or.inl (h4 id info' hold hz'))
    · rename_i hz
      refine ⟨hq', hn', hk', ?_⟩
      intro id info' hget hz'
      rcases mapGet_mapSet_cases _ _ _ _ _ hget with ⟨rfl, rfl⟩ | hold
      · simp only at hz'
        exact absurd hz' hz
      · exact h4 id info' hold hz'

theorem RInv_touchResource (r : Registry) (resourceId : String) (now : Nat) (h : RInv r) :
    RInv (touchResource r resourceId now) := by
  obtain ⟨h1, h2, h3, h4⟩ := h
  cases hg : mapGet r.resources resourceId with
  | none => simpa [touchResource, hg] using ⟨h1, h2, h3, h4⟩
  | some info =>
    simp only [touchResource, hg]
    refine ⟨?_, ?_, ?_, ?_⟩
    · intro id hq
      exact isSome_mapSet_of _ _ _ _ (h1 id hq)
    · intro id info' hget
      rcases mapGet_mapSet_cases _ _ _ _ _ hget with ⟨_, rfl⟩ | hold
      · exact h2 resourceId info hg
      · exact h2 id info' hold
    · intro id
      rw [isSome_mapSet_existing _ _ _ _ (by simp [hg])]
      exact h3 id
    · intro id info' hget hz
      rcases mapGet_mapSet_cases _ _ _ _ _ hget with ⟨rfl, rfl⟩ | hold
      · exact h4 id info hg hz
      · exact h4 id info' hold hz

theorem RInv_disposeResource (r : Registry) (resourceId : String) (force : Bool)
    (h : RInv r) : RInv (disposeResource r resourceId force).1 := by
  obtain ⟨h1, h2, h3, h4⟩ := h
  cases hi : mapGet r.resources resourceId with
  | none => simpa [disposeResource, hi] using ⟨h1, h2, h3, h4⟩
  | some info =>
    cases ho : mapGet r.resourceObjects resourceId with
    | none => simpa [disposeResource, hi, ho] using ⟨h1, h2, h3, h4⟩
    | some addr =>
      simp only [disposeResource, hi, ho]
      split
      · exact ⟨h1, h2, h3, h4⟩
      · refine ⟨?_, ?_, ?_, ?_⟩
        · intro id hq
          obtain ⟨hq, hne⟩ := (mem_setDelete _ _ _).mp hq
          show (mapGet (mapDelete r.resources resourceId) id).isSome = true
          rw [mapGet_mapDelete_ne _ _ _ hne]
          exact h1 id hq
        · intro id info' hget
          exact h2 id info' (mapGet_mapDelete_cases _ _ _ _ hget)
        · intro id
          show (mapGet (mapDelete r.resources resourceId) id).isSome =
            (mapGet (mapDelete r.resourceObjects resourceId) id).isSome
          by_cases hx : id = resourceId
          · subst hx
            rw [mapGet_mapDelete_self, mapGet_mapDelete_self]
            rfl
          · rw [mapGet_mapDelete_ne _ _ _ hx, mapGet_mapDelete_ne _ _ _ hx]
            exact h3 id
        · intro id info' hget hz
          by_cases hx : id = resourceId
          · subst hx
            rw [show mapGet ((⟨mapDelete r.resources id, mapDelete r.resourceObjects id,
              setDelete r.disposalQueue id, disposeSwitch r.heap info.type addr⟩ :
              Registry), true).1.resources id = none from mapGet_mapDelete_self _ _] at hget
            cases hget
          · have hold : mapGet r.resources id = some info' := by
              have := hget
              rwa [show ((⟨mapDelete r.resources resourceId,
                mapDelete r.resourceObjects resourceId, setDelete r.disposalQueue resourceId,
                disposeSwitch r.heap info.type addr⟩ : Registry), true).1.resources =
                mapDelete r.resources resourceId from rfl,
                mapGet_mapDelete_ne _ _ _ hx] at this
            exact (mem_setDelete _ _ _).mpr ⟨h4 id info' hold hz, hx⟩

theorem RInv_processQueueAux (l : List String) (r : Registry) (n : Nat) (h : RInv r) :
    RInv (processQueueAux l r n).1 := by
  induction l generalizing r n with
  | nil => exact h
  | cons hd tl ih =>
    exact ih _ _ (RInv_disposeResource r hd false h)

theorem RInv_applyOp (r : Registry) (op : RegOp) (h : RInv r) : RInv (applyOp r op) := by
  cases op with
  | register addr ty idOpt genId now => exact RInv_registerResource r addr ty idOpt genId now h
  | addRef resourceId now => exact RInv_addReference r resourceId now h
  | removeRef resourceId => exact RInv_removeReference r resourceId h
  | touch resourceId now => exact RInv_touchResource r resourceId now h
  | dispose resourceId force => exact RInv_disposeResource r resourceId force h
  | processQueue => exact RInv_processQueueAux r.disposalQueue r 0 h

theorem RInv_runOps (r : Registry) (ops : List RegOp) (h : RInv r) : RInv (runOps r ops) := by
  induction ops generalizing r with
  | nil => exact h
  | cons hd tl ih => exact ih _ (RInv_applyOp r hd h)

def hpC1 : Heap := [(1, HeapObj.geometry [100] (some 50) false)]

/-- Registry state after register(g); removeReference(g); addReference(g). -/
def rC1state : Registry :=
  runOps (initRegistry hpC1)
    [RegOp.register 1 RType.geometry (some "g") "gen" 0,
     RegOp.removeRef "g", RegOp.addRef "g" 1]

/-- Claim C1 as stated is false: after register, removeReference,
addReference, the id "g" is still in the disposal queue while its
ref_count is 1, so the queue is not `{ id | ref_count id = 0 }`. -/
theorem claim_C1_counterexample :
    "g" ∈ rC1state.disposalQueue ∧
    (mapGet rC1state.resources "g").map ResourceInfo.refCount = some 1 := by
  decide

/-- Amended C1: the queue only over-approximates the zero-count set.
Every queued id is still registered, and every registered id whose
ref_count is 0 is queued; removeReference enqueues an id when its count
reaches 0; but addReference never removes ids from the queue (only a
successful dispose does), so a queued id's ref_count may be positive. -/
theorem claim_C1_amended :
    (∀ (h : Heap) (ops : List RegOp) (id : String),
        id ∈ (runOps (initRegistry h) ops).disposalQueue →
        (mapGet (runOps (initRegistry h) ops).resources id).isSome = true) ∧
    (∀ (h : Heap) (ops : List RegOp) (id : String) (info : ResourceInfo),
        mapGet (runOps (initRegistry h) ops).resources id = some info →
        info.refCount = 0 →
        id ∈ (runOps (initRegistry h) ops).disposalQueue) ∧
    (∀ (r : Registry) (id : String) (info : ResourceInfo),
        mapGet r.resources id = some info → max 0 (info.refCount - 1) = 0 →
        id ∈ (removeReference r id).disposalQueue) ∧
    (∀ (r : Registry) (id : String) (now : Nat),
        (addReference r id now).disposalQueue = r.disposalQueue) ∧
    (∀ (r : Registry) (id : String) (force : Bool),
        (disposeResource r id force).2 = true →
        id ∉ (disposeResource r id force).1.disposalQueue) := by
  refine ⟨?_, ?_, ?_, ?_, ?_⟩
  · intro h ops id hq
    exact (RInv_runOps _ ops (RInv_initRegistry h)).1 id hq
  · intro h ops id info hget hz
    exact (RInv_runOps _ ops (RInv_initRegistry h)).2.2.2 id info hget hz
  · intro r id info hget hz
    simp only [removeReference, hget, hz, if_pos]
    exact (mem_setAdd _ _ _).mpr (Or.inr rfl)
  · intro r id now
    cases hg : mapGet r.resources id <;> simp [addReference, hg]
  · intro r id force hs
    cases hi : mapGet r.resources id with
    | none => simp [disposeResource, hi] at hs
    | some info =>
      cases ho : mapGet r.resourceObjects id with
      | none => simp [disposeResource, hi, ho] at hs
      | some addr =>
        by_cases hc : (!force && decide (info.refCount > 0)) = true
        · simp [disposeResource, hi, ho, hc] at hs
        · simp [disposeResource, hi, ho, hc, mem_setDelete]

theorem claim_C1_witness :
    ((mapGet (runOps (initRegistry hpC1)
        [RegOp.register 1 RType.geometry (some "g") "gen" 0,
         RegOp.removeRef "g"]).resources "g").isSome = true) ∧
    ("g" ∈ (runOps (initRegistry hpC1)
        [RegOp.register 1 RType.geometry (some "g") "gen" 0,
         RegOp.removeRef "g"]).disposalQueue) ∧
    ("g" ∈ (removeReference rC1state "g").disposalQueue) ∧
    ((addReference rC1state "g" 5).disposalQueue = rC1state.disposalQueue) :=
  ⟨claim_C1_amended.1 hpC1 _ "g" (by decide),
   claim_C1_amended.2.1 hpC1 _ "g"
     { id := "g", type := RType.geometry, size := 150, createdAt := 0,
       lastUsed := 0, refCount := 0 } (by decide) (by decide),
   claim_C1_amended.2.2.1 rC1state "g"
     { id := "g", type := RType.geometry, size := 150, createdAt := 0,
       lastUsed := 1, refCount := 1 } (by decide) (by decide),
   claim_C1_amended.2.2.2.1 rC1state "g" 5⟩

/-- Claim C2: ref_count starts at 1 on registration, never goes
negative along any call sequence, disposal without force succeeds
exactly on ref_count 0 for a registered id, and a refused dispose
leaves the registry (records, counts, objects) unchanged. -/
theorem claim_C2 :
    (∀ (r : Registry) (addr : Nat) (ty : RType) (idOpt : Option String)
        (genId : String) (now : Nat),
        (mapGet (registerResource r addr ty idOpt genId now).1.resources
            (registerResource r addr ty idOpt genId now).2).map ResourceInfo.refCount =
          some 1) ∧
    (∀ (h : Heap) (ops : List RegOp) (id : String) (info : ResourceInfo),
        mapGet (runOps (initRegistry h) ops).resources id = some info →
        0 ≤ info.refCount) ∧
    (∀ (h : Heap) (ops : List RegOp) (id : String) (info : ResourceInfo),
        mapGet (runOps (initRegistry h) ops).resources id = some info →
        ((disposeResource (runOps (initRegistry h) ops) id false).2 = true ↔
          info.refCount = 0)) ∧
    (∀ (r : Registry) (id : String) (info : ResourceInfo),
        mapGet r.resources id = some info → 0 < info.refCount →
        disposeResource r id false = (r, false)) := by
  refine ⟨?_, ?_, ?_, ?_⟩
  · intro r addr ty idOpt genId now
    simp [registerResource, mapGet_mapSet_self]
  · intro h ops id info hget
    exact (RInv_runOps _ ops (RInv_initRegistry h)).2.1 id info hget
  · intro h ops id info hget
    obtain ⟨hinv1, hinv2, hinv3, hinv4⟩ := RInv_runOps _ ops (RInv_initRegistry h)
    have hobj : (mapGet (runOps (initRegistry h) ops).resourceObjects id).isSome = true := by
      rw [← hinv3 id, hget]
      rfl
    obtain ⟨addr, ho⟩ := Option.isSome_iff_exists.mp hobj
    have hnn := hinv2 id info hget
    simp only [disposeResource, hget, ho]
    split
    · rename_i hcond
      simp only [Bool.not_false, Bool.true_and, decide_eq_true_eq] at hcond
      simp only [Prod.snd]
      constructor
      · intro hfalse; cases hfalse
      · intro hzero; omega
    · rename_i hcond
      simp only [Bool.not_false, Bool.true_and, decide_eq_true_eq] at hcond
      simp only [Prod.snd, true_iff]
      omega
  · intro r id info hget hpos
    have hcond : (!false && decide (info.refCount > 0)) = true := by
      simp [hpos]
    cases ho : mapGet r.resourceObjects id with
    | none => simp [disposeResource, hget, ho]
    | some addr =>
      simp only [disposeResource, hget, ho, hcond, if_pos]

def hpC2 : Heap := [(1, HeapObj.geometry [100] (some 50) false)]

def opsC2 : List RegOp :=
  [RegOp.register 1 RType.geometry (some "g") "gen" 0, RegOp.removeRef "g"]

def infoC2 : ResourceInfo :=
  { id := "g", type := RType.geometry, size := 150, createdAt := 0,
    lastUsed := 0, refCount := 0 }

theorem claim_C2_witness :
    (0 ≤ infoC2.refCount) ∧
    ((disposeResource (runOps (initRegistry hpC2) opsC2) "g" false).2 = true ↔
      infoC2.refCount = 0) :=
  ⟨claim_C2.2.1 hpC2 opsC2 "g" infoC2 (by decide),
   claim_C2.2.2.1 hpC2 opsC2 "g" infoC2 (by decide)⟩

def hpC3 : Heap := [(1, HeapObj.geometry [100] none false), (2, HeapObj.material false)]

def rC3a : Registry := (registerResource (initRegistry hpC3) 1 RType.geometry (some "x") "g1" 10).1

def rC3b : Registry := (registerResource rC3a 2 RType.material (some "x") "g2" 20).1

/-- Claim C3 as stated is false: registering a second resource under
the already-present id "x" is not an error or no-op — the previously
stored record is silently replaced (the stored type flips from geometry
to material, timestamps and ref_count are reset). -/
theorem claim_C3_counterexample :
    mapGet rC3b.resources "x" ≠ mapGet rC3a.resources "x" ∧
    (mapGet rC3b.resources "x").map ResourceInfo.type = some RType.material ∧
    mapGet rC3b.resourceObjects "x" = some 2 := by
  decide

/-- Amended C3: `registerResource` performs no duplicate check; a call
with an explicit id that is already registered silently overwrites both
the record (fresh ref_count 1 and timestamps, newly computed size) and
the owning object for that id. -/
theorem claim_C3_amended (r : Registry) (addr : Nat) (ty : RType) (id genId : String)
    (now : Nat) (hdup : (mapGet r.resources id).isSome = true) :
    (registerResource r addr ty (some id) genId now).2 = id ∧
    mapGet (registerResource r addr ty (some id) genId now).1.resources id =
      some { id := id, type := ty, size := estimateResourceSize r.heap addr ty,
             createdAt := now, lastUsed := now, refCount := 1 } ∧
    mapGet (registerResource r addr ty (some id) genId now).1.resourceObjects id =
      some addr := by
  refine ⟨rfl, ?_, ?_⟩ <;>
    simp [registerResource, mapGet_mapSet_self]

theorem claim_C3_witness :
    (registerResource rC3a 2 RType.material (some "x") "g2" 20).2 = "x" ∧
    mapGet (registerResource rC3a 2 RType.material (some "x") "g2" 20).1.resources "x" =
      some { id := "x", type := RType.material,
             size := estimateResourceSize rC3a.heap 2 RType.material,
             createdAt := 20, lastUsed := 20, refCount := 1 } ∧
    mapGet (registerResource rC3a 2 RType.material (some "x") "g2" 20).1.resourceObjects "x" =
      some 2 :=
  claim_C3_amended rC3a 2 RType.material "x" "g2" 20 (by decide)

theorem objDispose_idem (o : HeapObj) : objDispose (objDispose o) = objDispose o := by
  cases o <;> rfl

theorem mapGet_heapDisposeAt (h : Heap) (a x : Nat) :
    mapGet (heapDisposeAt h a) x =
      if x = a then (mapGet h a).map objDispose else mapGet h x := by
  unfold heapDisposeAt
  cases ha : mapGet h a with
  | none =>
    by_cases hx : x = a
    · subst hx; simp [ha]
    · simp [hx]
  | some o =>
    by_cases hx : x = a
    · subst hx; simp [mapGet_mapSet_self, ha]
    · simp [mapGet_mapSet_ne _ _ _ _ hx, hx]

theorem mapGet_foldl_heapDisposeAt (l : List Nat) (h : Heap) (x : Nat) :
    mapGet (l.foldl heapDisposeAt h) x =
      if x ∈ l then (mapGet h x).map objDispose else mapGet h x := by
  induction l generalizing h with
  | nil => simp
  | cons a tl ih =>
    simp only [List.foldl_cons, List.mem_cons]
    rw [ih]
    by_cases hmem : x ∈ tl
    · simp only [hmem, if_pos (Or.inr hmem), if_pos]
      rw [mapGet_heapDisposeAt]
      by_cases hx : x = a
      · subst hx
        cases mapGet h x <;> simp [objDispose_idem]
      · simp [hx]
    · simp only [hmem, or_false]
      rw [mapGet_heapDisposeAt]
      by_cases hx : x = a
      · subst hx
        simp
      · simp [hx]

theorem mapGet_disposeMesh (h : Heap) (geo : Option Nat) (mats : List Nat) (x : Nat) :
    mapGet (disposeMesh h geo mats) x =
      if (geo = some x ∨ x ∈ mats) then (mapGet h x).map objDispose
      else mapGet h x := by
  unfold disposeMesh
  cases geo with
  | none =>
    rw [mapGet_foldl_heapDisposeAt]
    simp
  | some g =>
    rw [mapGet_foldl_heapDisposeAt, mapGet_heapDisposeAt]
    by_cases hmem : x ∈ mats
    · simp only [hmem, if_true, or_true, if_pos (Or.inr hmem)]
      by_cases hx : x = g
      · subst hx
        cases mapGet h x <;> simp [objDispose_idem]
      · simp [hx]
    · by_cases hx : x = g
      · subst hx
        simp [hmem]
      · have hgx : ¬ (some g = some x) := fun e => hx (Option.some.inj e).symm
        simp [hmem, hx, hgx]

/-- Claim C10: disposing a registered mesh resource (ref_count 0)
succeeds, calls dispose() on the mesh's own geometry and material
objects, yet removes only the mesh's id from the registry: every other
id keeps its record and object entry, the registered total drops by
exactly one, and a geometry registered under its own id (as the chunk
loader registers them) keeps its record while its underlying object is
now disposed. -/
theorem claim_C10 (r : Registry) (mid gid : String) (minfo ginfo : ResourceInfo)
    (maddr gaddr : Nat) (mats : List Nat)
    (hnodup : (r.resources.map Prod.fst).Nodup)
    (hm : mapGet r.resources mid = some minfo)
    (hty : minfo.type = RType.mesh)
    (hrc : minfo.refCount = 0)
    (hmo : mapGet r.resourceObjects mid = some maddr)
    (hheap : mapGet r.heap maddr = some (HeapObj.mesh (some gaddr) mats))
    (hg : mapGet r.resources gid = some ginfo)
    (hne : gid ≠ mid) :
    (disposeResource r mid false).2 = true ∧
    mapGet (disposeResource r mid false).1.resources mid = none ∧
    mapGet (disposeResource r mid false).1.resources gid = some ginfo ∧
    (∀ oid, oid ≠ mid →
      mapGet (disposeResource r mid false).1.resources oid = mapGet r.resources oid ∧
      mapGet (disposeResource r mid false).1.resourceObjects oid =
        mapGet r.resourceObjects oid) ∧
    (getResourceStats (disposeResource r mid false).1).totalResources + 1 =
      (getResourceStats r).totalResources ∧
    mapGet (disposeResource r mid false).1.heap gaddr =
      (mapGet r.heap gaddr).map objDispose ∧
    (∀ a ∈ mats, mapGet (disposeResource r mid false).1.heap a =
      (mapGet r.heap a).map objDispose) := by
  have hcond : (!false && decide (minfo.refCount > 0)) = false := by
    rw [hrc]
    decide
  have hres : disposeResource r mid false =
      ({ r with heap := disposeSwitch r.heap minfo.type maddr,
                resources := mapDelete r.resources mid,
                resourceObjects := mapDelete r.resourceObjects mid,
                disposalQueue := setDelete r.disposalQueue mid }, true) := by
    simp [disposeResource, hm, hmo, hcond, hrc]
  have hswitch : disposeSwitch r.heap minfo.type maddr =
      disposeMesh r.heap (some gaddr) mats := by
    rw [hty]
    simp [disposeSwitch, hheap]
  rw [hres]
  refine ⟨rfl, ?_, ?_, ?_, ?_, ?_, ?_⟩
  · exact mapGet_mapDelete_self _ _
  · show mapGet (mapDelete r.resources mid) gid = some ginfo
    rw [mapGet_mapDelete_ne _ _ _ hne]
    exact hg
  · intro oid hone
    exact ⟨mapGet_mapDelete_ne _ _ _ hone, mapGet_mapDelete_ne _ _ _ hone⟩
  · show (mapDelete r.resources mid).length + 1 = r.resources.length
    exact mapDelete_length r.resources mid hnodup (by simp [hm])
  · show mapGet (disposeSwitch r.heap minfo.type maddr) gaddr = _
    rw [hswitch, mapGet_disposeMesh]
    simp
  · intro a ha
    show mapGet (disposeSwitch r.heap minfo.type maddr) a = _
    rw [hswitch, mapGet_disposeMesh]
    simp [ha]

def hpC10 : Heap :=
  [(10, HeapObj.geometry [120] (some 60) false),
   (11, HeapObj.material false),
   (12, HeapObj.mesh (some 10) [11])]

/-- Registry built the way `loadChunk` builds it: the mesh, its
geometry and its material registered under separate ids, then the
mesh's reference released so it becomes disposal-eligible. -/
def rC10 : Registry :=
  runOps (initRegistry hpC10)
    [RegOp.register 12 RType.mesh (some "mesh_u") "gen" 0,
     RegOp.register 10 RType.geometry (some "geo_g") "gen" 0,
     RegOp.register 11 RType.material (some "mat_u_0") "gen" 0,
     RegOp.removeRef "mesh_u"]

def ginfoC10 : ResourceInfo :=
  { id := "geo_g", type := RType.geometry, size := 180, createdAt := 0,
    lastUsed := 0, refCount := 1 }

theorem claim_C10_witness :
    (disposeResource rC10 "mesh_u" false).2 = true ∧
    mapGet (disposeResource rC10 "mesh_u" false).1.resources "geo_g" = some ginfoC10 ∧
    mapGet (disposeResource rC10 "mesh_u" false).1.heap 10 =
      (mapGet rC10.heap 10).map objDispose := by
  have h := claim_C10 rC10 "mesh_u" "geo_g"
    { id := "mesh_u", type := RType.mesh, size := 512, createdAt := 0,
      lastUsed := 0, refCount := 0 }
    ginfoC10 12 10 [11]
    (by decide) (by decide) (by decide) (by decide) (by decide) (by decide)
    (by decide) (by decide)
  exact ⟨h.1, h.2.2.1, h.2.2.2.2.2.1⟩

/-- Claim C4: along every execution of the loading loop — any queue
contents, any interleaving of starts and completions — the active set
never exceeds `maxConcurrentChunks`, even transiently, because each
start is guarded by the size check and `loadChunk` adds its id
synchronously under that guard. -/
theorem claim_C4 (maxConcurrentChunks : Nat) (queue : List Chunk) (s : LoaderState)
    (hreach : LoadReaches maxConcurrentChunks (initLoaderState queue) s) :
    s.activeLoads.length ≤ maxConcurrentChunks := by
  induction hreach with
  | refl => simp [initLoaderState]
  | tail _ hstep ih =>
    cases hstep with
    | start c rest hlt hq =>
      exact le_trans (setAdd_length_le _ _) hlt
    | finish c hmem =>
      exact le_trans (setDelete_length_le _ _) ih

def chunkW4 : Chunk := createChunk [] LOW 0

theorem claim_C4_witness :
    ({ loadingQueue := [], activeLoads := setAdd [] chunkW4.id,
       loadedChunks := [], started := [chunkW4] } : LoaderState).activeLoads.length ≤ 1 :=
  claim_C4 1 [chunkW4] _
    (LoadReaches.tail (LoadReaches.refl _)
      (LoadStep.start (initLoaderState [chunkW4]) chunkW4 [] (by decide) rfl))

theorem chunkAccum_spec (limit priority : Nat) (input : List LMesh) :
    ∀ (cur : List LMesh) (curSize : Nat),
      curSize = (cur.map estimateMeshSize).sum →
      (cur.length > 1 → curSize ≤ limit) →
      (∀ m ∈ cur, estimateMeshSize m > limit → cur = [m]) →
      (((chunkAccum limit priority input cur curSize).map Chunk.meshes).foldr
          (fun a b => a ++ b) [] = cur ++ input) ∧
      (∀ c ∈ chunkAccum limit priority input cur curSize,
        (c.meshes.length > 1 → (c.meshes.map estimateMeshSize).sum ≤ limit) ∧
        (∀ m ∈ c.meshes, estimateMeshSize m > limit → c.meshes = [m])) := by
  induction input with
  | nil =>
    intro cur curSize hsum hbound hover
    by_cases hc : cur.length > 0
    · refine ⟨by simp [chunkAccum, hc, createChunk], ?_⟩
      intro c hcmem
      simp only [chunkAccum, if_pos hc, List.mem_singleton] at hcmem
      subst hcmem
      exact ⟨fun hlen => hsum ▸ hbound hlen, hover⟩
    · have hnil : cur = [] := List.length_eq_zero.mp (by omega)
      subst hnil
      refine ⟨by simp [chunkAccum], ?_⟩
      intro c hcmem
      simp [chunkAccum] at hcmem
  | cons m rest ih =>
    intro cur curSize hsum hbound hover
    simp only [chunkAccum]
    by_cases hcond : (decide (curSize + estimateMeshSize m > limit) &&
        decide (cur.length > 0)) = true
    · simp only [Bool.and_eq_true, decide_eq_true_eq] at hcond
      obtain ⟨hgt, hpos⟩ := hcond
      rw [if_pos (by simp [hgt, hpos])]
      have hrec := ih [m] (estimateMeshSize m) (by simp)
        (by intro h; simp at h) (by intro m' hm' _; simp at hm'; simp [hm'])
      refine ⟨?_, ?_⟩
      · simp only [List.map_cons, List.foldr_cons, hrec.1, createChunk]
        simp
      · intro c hcmem
        rcases List.mem_cons.mp hcmem with rfl | hcmem
        · exact ⟨fun hlen => hsum ▸ hbound hlen, hover⟩
        · exact hrec.2 c hcmem
    · rw [if_neg (by simpa using hcond)]
      have hdisj : curSize + estimateMeshSize m ≤ limit ∨ cur = [] := by
        rcases Bool.and_eq_false_iff.mp (Bool.not_eq_true _ |>.mp hcond) with h | h
        · left
          have := of_decide_eq_false h
          omega
        · right
          have := of_decide_eq_false h
          exact List.length_eq_zero.mp (by omega)
      have hsum' : curSize + estimateMeshSize m =
          ((cur ++ [m]).map estimateMeshSize).sum := by
        simp [hsum]
      have hbound' : (cur ++ [m]).length > 1 → curSize + estimateMeshSize m ≤ limit := by
        intro hlen
        rcases hdisj with h | h
        · exact h
        · subst h
          simp at hlen
      have hover' : ∀ m' ∈ cur ++ [m],
          estimateMeshSize m' > limit → cur ++ [m] = [m'] := by
        intro m' hm' hbig
        rcases hdisj with h | h
        · rcases List.mem_append.mp hm' with hmc | hml
          · exfalso
            have hcur := hover m' hmc hbig
            rw [hcur] at hsum
            simp at hsum
            omega
          · simp only [List.mem_singleton] at hml
            subst hml
            exfalso
            omega
        · subst h
          simp only [List.nil_append, List.mem_singleton] at hm'
          subst hm'
          rfl
      have hrec := ih (cur ++ [m]) (curSize + estimateMeshSize m) hsum' hbound' hover'
      refine ⟨?_, hrec.2⟩
      rw [hrec.1]
      simp

/-- Claim C5: every chunk the chunker produces with more than one
member has total member size at most the chunk size limit; a mesh
larger than the limit on its own always ends up alone in its own chunk;
and no mesh is dropped or split (the chunks' members concatenate back
to the input list). -/
theorem claim_C5 (limit : Nat) (meshes : List LMesh) (priority : Nat) :
    (((createChunksFromMeshes limit meshes priority).map Chunk.meshes).foldr
        (fun a b => a ++ b) [] = meshes) ∧
    (∀ c ∈ createChunksFromMeshes limit meshes priority,
      (c.meshes.length > 1 → (c.meshes.map estimateMeshSize).sum ≤ limit) ∧
      (∀ m ∈ c.meshes, estimateMeshSize m > limit → c.meshes = [m])) := by
  have h := chunkAccum_spec limit priority meshes [] 0 (by simp)
    (by intro h; simp at h) (by intro m hm; simp at hm)
  exact ⟨by simpa using h.1, h.2⟩

def mBigW : LMesh :=
  { name := "big", indexCount := none, positionCount := none,
    attrBytes := [5000], indexBytes := none, visible := true }

def cW5 : Chunk := createChunk [mBigW] LOW (estimateMeshSize mBigW)

theorem claim_C5_witness :
    ((createChunksFromMeshes 10 [mBigW] LOW).map Chunk.meshes).foldr
        (fun a b => a ++ b) [] = [mBigW] ∧
    cW5.meshes = [mBigW] :=
  ⟨(claim_C5 10 [mBigW] LOW).1,
   ((claim_C5 10 [mBigW] LOW).2 cW5 (by decide)).2 mBigW (by decide) (by decide)⟩

theorem LoadReaches_started_queue (maxConcurrentChunks : Nat) (s0 s : LoaderState)
    (h : LoadReaches maxConcurrentChunks s0 s) :
    s.started ++ s.loadingQueue = s0.started ++ s0.loadingQueue := by
  induction h with
  | refl => rfl
  | tail _ hstep ih =>
    cases hstep with
    | start c rest hlt hq =>
      rw [← ih, hq]
      simp
    | finish c hmem => exact ih

def foundationMesh : LMesh :=
  { name := "foundation-a", indexCount := some 300, positionCount := some 300,
    attrBytes := [100], indexBytes := some 50, visible := true }

def panelMesh : LMesh :=
  { name := "panel-wall-1", indexCount := some 300, positionCount := some 300,
    attrBytes := [100], indexBytes := some 50, visible := true }

def trimMesh : LMesh :=
  { name := "trim-fixture-2", indexCount := some 300, positionCount := some 300,
    attrBytes := [100], indexBytes := some 50, visible := true }

def scene3 : List LMesh := [foundationMesh, panelMesh, trimMesh]

/-- The chunk queue the loader builds for the three-mesh scene under
the default 5 MiB chunk size limit. -/
def chunks3 : List Chunk := loadModelChunks 5242880 scene3

/-- Claim C6 as stated is false: "trim-fixture-2" matches the
detail/trim/fixture name rule and is classified MEDIUM, not LOW, so the
produced priorities are Critical, High, Medium. -/
theorem claim_C6_counterexample :
    chunks3.map Chunk.priority ≠ [CRITICAL, HIGH, LOW] ∧
    determineMeshPriority trimMesh = MEDIUM ∧ MEDIUM ≠ LOW := by
  decide

/-- Amended C6: the three-mesh scene produces exactly 3 singleton
chunks with priorities Critical, High, Medium in that queue order, and
the scheduler begins chunk activation in queue order (the chunks
started so far are always a prefix of the queue, in order). -/
theorem claim_C6_amended :
    chunks3.length = 3 ∧
    chunks3.map Chunk.priority = [CRITICAL, HIGH, MEDIUM] ∧
    chunks3.map Chunk.meshes = [[foundationMesh], [panelMesh], [trimMesh]] ∧
    (∀ s, LoadReaches 3 (initLoaderState chunks3) s →
      s.started ++ s.loadingQueue = chunks3) := by
  refine ⟨by decide, by decide, by decide, ?_⟩
  intro s hs
  have h := LoadReaches_started_queue 3 _ s hs
  simpa [initLoaderState] using h

theorem claim_C6_witness :
    (initLoaderState chunks3).started ++ (initLoaderState chunks3).loadingQueue = chunks3 :=
  claim_C6_amended.2.2.2 _ (LoadReaches.refl _)

/-- Claim C9: when distance-based loading is enabled and camera/scene
are set, the distance update overwrites every member mesh's visible
flag of every completed chunk with a value that does not depend on the
previous flag: Critical and High members become visible unconditionally,
Medium members become visible exactly within 100 units and Low members
exactly within 50; frustum culling likewise overwrites the flag, so a
mesh hidden by culling is re-shown by the next distance update. -/
theorem claim_C9 (opts : ProgressiveLoadingOptions) (cam : Vec3)
    (dist : Vec3 → LMesh → ℚ) (loadedChunks : List (String × Chunk))
    (henabled : opts.distanceBasedLoading = true) :
    (updateDistanceBasedLoading opts (some cam) (some ()) dist loadedChunks =
      loadedChunks.map (fun kc =>
        (kc.1, { kc.2 with meshes := kc.2.meshes.map (fun m =>
          { m with visible := distanceVisibility kc.2.priority (dist cam m) }) }))) ∧
    (∀ d : ℚ, distanceVisibility CRITICAL d = true) ∧
    (∀ d : ℚ, distanceVisibility HIGH d = true) ∧
    (∀ d : ℚ, distanceVisibility MEDIUM d = decide (d ≤ 100)) ∧
    (∀ d : ℚ, distanceVisibility LOW d = decide (d ≤ 50)) ∧
    (∀ (test : LMesh → Bool) (meshes : List LMesh),
      performFrustumCulling test meshes = meshes.map (fun m => { m with visible := test m })) := by
  refine ⟨?_, ?_, ?_, ?_, ?_, fun _ _ => rfl⟩
  · simp [updateDistanceBasedLoading, henabled]
  · intro d
    simp [distanceVisibility, CRITICAL, MEDIUM, LOW]
  · intro d
    simp [distanceVisibility, HIGH, MEDIUM, LOW]
  · intro d
    by_cases hd : d ≤ 100
    · have hno : ¬ d > 100 := not_lt.mpr hd
      simp [distanceVisibility, MEDIUM, LOW, hd, hno]
    · have hyes : d > 100 := lt_of_not_ge hd
      simp [distanceVisibility, MEDIUM, LOW, hd, hyes]
  · intro d
    by_cases hd50 : d ≤ 50
    · have hd100 : ¬ d > 100 := not_lt.mpr (le_trans hd50 (by norm_num))
      have hno : ¬ d > 50 := not_lt.mpr hd50
      simp [distanceVisibility, MEDIUM, LOW, hd50, hd100, hno]
    · have hgt : d > 50 := lt_of_not_ge hd50
      by_cases hd100 : d > 100
      · simp [distanceVisibility, MEDIUM, LOW, hd50, hd100]
      · simp [distanceVisibility, MEDIUM, LOW, hd50, hd100, hgt]

theorem reduceQuality_pixelRatio (r : RendererState) :
    (reduceQuality r).pixelRatio =
      if r.pixelRatio > 1 then max 1 (r.pixelRatio * (4 / 5)) else r.pixelRatio := by
  simp only [reduceQuality]
  by_cases h1 : r.pixelRatio > 1 <;> by_cases h2 : r.shadowMapEnabled <;> simp [h1, h2]

theorem reduceQuality_shadow (r : RendererState) :
    (reduceQuality r).shadowMapEnabled = false := by
  simp only [reduceQuality]
  by_cases h1 : r.pixelRatio > 1 <;> by_cases h2 : r.shadowMapEnabled <;> simp [h1, h2]

theorem increaseQuality_pixelRatio (dpr : ℚ) (r : RendererState) :
    (increaseQuality dpr r).pixelRatio =
      if r.pixelRatio < min dpr 2 then min (min dpr 2) (r.pixelRatio * (11 / 10))
      else r.pixelRatio := by
  simp only [increaseQuality]
  by_cases h1 : r.pixelRatio < min dpr 2 <;> by_cases h2 : r.shadowMapEnabled <;>
    simp [h1, h2]

theorem increaseQuality_shadow (dpr : ℚ) (r : RendererState) :
    (increaseQuality dpr r).shadowMapEnabled = true := by
  simp only [increaseQuality]
  by_cases h1 : r.pixelRatio < min dpr 2 <;> by_cases h2 : r.shadowMapEnabled <;>
    simp [h1, h2]

def sC7 : OptimizationSettings :=
  { enableLOD := true, enableFrustumCulling := true, enableOcclusionCulling := false,
    maxDrawCalls := 100, targetFPS := 30, adaptiveQuality := true }

def rC7low : RendererState := { pixelRatio := 1 / 2, shadowMapEnabled := true }

/-- Claim C7 as stated is false on the low-ratio side: with pixel ratio
1/2 and FPS far below 0.8 × target, the code's `reduceQuality` leaves
the ratio at 1/2 (the `ratio > 1` guard fails), while the claimed
formula `max(1, ratio × 0.8)` would give 1. -/
theorem claim_C7_counterexample :
    ((10 : ℚ) < sC7.targetFPS * (4 / 5)) ∧
    (adaptiveOptimization sC7 2 (some { fps := 10 }) rC7low).pixelRatio = 1 / 2 ∧
    max 1 ((1 / 2 : ℚ) * (4 / 5)) = 1 ∧
    (1 / 2 : ℚ) ≠ 1 := by
  refine ⟨by norm_num [sC7], ?_, by norm_num, by norm_num⟩
  norm_num [adaptiveOptimization, sC7, rC7low, reduceQuality]

/-- Amended C7: with adaptive quality on and a metrics sample present,
FPS below 0.8 × target runs `reduceQuality` — the pixel ratio becomes
`max(1, ratio × 0.8)` only when the current ratio exceeds 1 and is left
unchanged otherwise, and shadows end up off; FPS above 1.2 × target
runs `increaseQuality` — the ratio becomes `min(cap, ratio × 1.1)` only
when below the cap `min(devicePixelRatio, 2)` and is left unchanged
otherwise, and shadows end up on; FPS within the band changes nothing. -/
theorem claim_C7_amended (s : OptimizationSettings) (dpr : ℚ) (m : PerformanceSample)
    (r : RendererState) (hq : s.adaptiveQuality = true) :
    (m.fps < s.targetFPS * (4 / 5) →
      (adaptiveOptimization s dpr (some m) r).pixelRatio =
        (if r.pixelRatio > 1 then max 1 (r.pixelRatio * (4 / 5)) else r.pixelRatio) ∧
      (adaptiveOptimization s dpr (some m) r).shadowMapEnabled = false) ∧
    (¬ m.fps < s.targetFPS * (4 / 5) → m.fps > s.targetFPS * (6 / 5) →
      (adaptiveOptimization s dpr (some m) r).pixelRatio =
        (if r.pixelRatio < min dpr 2 then min (min dpr 2) (r.pixelRatio * (11 / 10))
         else r.pixelRatio) ∧
      (adaptiveOptimization s dpr (some m) r).shadowMapEnabled = true) ∧
    (s.targetFPS * (4 / 5) ≤ m.fps → m.fps ≤ s.targetFPS * (6 / 5) →
      adaptiveOptimization s dpr (some m) r = r) := by
  have hadapt : adaptiveOptimization s dpr (some m) r =
      (if m.fps < s.targetFPS * (4 / 5) then reduceQuality r
       else if m.fps > s.targetFPS * (6 / 5) then increaseQuality dpr r else r) := by
    simp [adaptiveOptimization, hq]
  refine ⟨?_, ?_, ?_⟩
  · intro hlow
    rw [hadapt, if_pos hlow]
    exact ⟨reduceQuality_pixelRatio r, reduceQuality_shadow r⟩
  · intro hnotlow hhigh
    rw [hadapt, if_neg hnotlow, if_pos hhigh]
    exact ⟨increaseQuality_pixelRatio dpr r, increaseQuality_shadow dpr r⟩
  · intro h1 h2
    rw [hadapt, if_neg (not_lt.mpr h1), if_neg (not_lt.mpr h2)]

def rC7two : RendererState := { pixelRatio := 2, shadowMapEnabled := true }

theorem claim_C7_witness :
    (adaptiveOptimization sC7 2 (some { fps := 10 }) rC7two).pixelRatio =
      (if rC7two.pixelRatio > 1 then max 1 (rC7two.pixelRatio * (4 / 5))
       else rC7two.pixelRatio) ∧
    (adaptiveOptimization sC7 2 (some { fps := 10 }) rC7two).shadowMapEnabled = false :=
  (claim_C7_amended sC7 2 { fps := 10 } rC7two rfl).1 (by norm_num [sC7])

def geomC8 : OptGeometry :=
  { hasPositions := true, indexVals := some [0, 1, 2, 3, 4, 5, 6, 7, 8, 9, 10, 11] }

def meshC8 : OptMesh :=
  { geometry := geomC8, materials := [OptMaterial.standard 255 false 1],
    userDataIsLOD := false }

/-- Claim C8 as stated is false: creating the LOD for a concrete mesh
under the default config produces a 4-level LOD (3 simplified
variants), yet the Resource Registry is left exactly as it was — no
variant is registered — and `dispose` likewise never reaches the
registry. -/
theorem claim_C8_counterexample :
    (createLODForMesh defaultLODConfig meshC8 { lodObjects := [] }
        (initRegistry [])).1.levels.length = 4 ∧
    (createLODForMesh defaultLODConfig meshC8 { lodObjects := [] }
        (initRegistry [])).2.2 = initRegistry [] ∧
    (getResourceStats (createLODForMesh defaultLODConfig meshC8 { lodObjects := [] }
        (initRegistry [])).2.2).totalResources = 0 := by
  decide

/-- Amended C8: LOD variants are not tracked by the Resource Registry
at all — `createLODForMesh` records the variant only in the
controller's own `lodObjects` map and leaves any registry untouched,
and controller teardown (`dispose`, via `reset`) merely clears
`lodObjects`, restores pixel ratio and shadows, and re-shows scene
meshes, again without any registry interaction. -/
theorem claim_C8_amended :
    (∀ (cfg : LODConfig) (m : OptMesh) (st : OptimizerState) (reg : Registry),
      (createLODForMesh cfg m st reg).2.2 = reg ∧
      (createLODForMesh cfg m st reg).2.1.lodObjects =
        mapSet st.lodObjects m (createLODForMesh cfg m st reg).1) ∧
    (∀ (dpr : ℚ) (st : OptimizerState) (r : RendererState) (meshes : List LMesh)
        (reg : Registry),
      (optimizerDispose dpr st r meshes reg).2 = reg ∧
      (optimizerDispose dpr st r meshes reg).1.1.lodObjects = [] ∧
      (optimizerDispose dpr st r meshes reg).1.2.1 =
        { pixelRatio := min dpr 2, shadowMapEnabled := true } ∧
      (optimizerDispose dpr st r meshes reg).1.2.2.map LMesh.visible =
        meshes.map (fun _ => true)) := by
  refine ⟨fun cfg m st reg => ⟨rfl, rfl⟩,
    fun dpr st r meshes reg => ⟨rfl, rfl, rfl, ?_⟩⟩
  show (meshes.map (fun m => { m with visible := true })).map LMesh.visible =
    meshes.map (fun _ => true)
  induction meshes with
  | nil => rfl
  | cons a tl ih => simpa using ih

def optsC9 : ProgressiveLoadingOptions :=
  { maxConcurrentChunks := 3, chunkSizeLimit := 5242880, priorityDelayMs := 100,
    enablePreloading := true, distanceBasedLoading := true }

def chunkC9 : Chunk :=
  { id := "chunk_0", priority := CRITICAL,
    meshes := [{ foundationMesh with visible := false }],
    estimatedSize := 1174, loaded := true }

theorem claim_C9_witness :
    updateDistanceBasedLoading optsC9 (some ⟨0, 0, 0⟩) (some ()) (fun _ _ => 500)
        [("k", chunkC9)] =
      [("k", { chunkC9 with meshes := chunkC9.meshes.map (fun m =>
        { m with visible := distanceVisibility chunkC9.priority 500 }) })] ∧
    distanceVisibility CRITICAL 500 = true ∧
    distanceVisibility MEDIUM 150 = decide ((150 : ℚ) ≤ 100) :=
  ⟨(claim_C9 optsC9 ⟨0, 0, 0⟩ (fun _ _ => 500) [("k", chunkC9)] rfl).1,
   (claim_C9 optsC9 ⟨0, 0, 0⟩ (fun _ _ => 500) [("k", chunkC9)] rfl).2.1 500,
   (claim_C9 optsC9 ⟨0, 0, 0⟩ (fun _ _ => 500) [("k", chunkC9)] rfl).2.2.2.1 150⟩
